import Mathlib

/-!
Shallow embedding of the task-management core of `class 7/main.py`
(task hierarchy, `TaskManager`, `TaskFilter`, JSON persistence), together
with theorems about its behaviour.

Modelling conventions:
* Python `datetime` values are modelled as `Nat` timestamps (seconds);
  `timedelta(days := n)` is `n * secondsPerDay`, `timedelta(weeks := 1)` is
  `7 * secondsPerDay`.  `isoformat`/`fromisoformat` form a bijection between
  datetimes and their stored text, so the stored text is modelled by the
  timestamp itself.  Each method takes the current time `now` as an explicit
  argument; the successive `datetime.now()` calls inside one method body are
  modelled as the same instant.
* Python `set` values (tags, dependencies) are modelled as `Finset String`;
  `list(s)` followed by `set(...)` on load is the identity on the underlying
  set, so serialized tag/dependency lists are modelled by the `Finset` itself
  (the JSON list order is unspecified and irrelevant).
* Python `float` is modelled as `Rat` (all values the claims touch are exact).
* A `raise` is modelled by `Except.error`; the mutated object is only
  produced on `Except.ok`, matching the fact that the exception is raised
  before any assignment happens.
* The `status` attribute is dynamically typed in Python: normally it holds a
  `TaskStatus` member, but `TaskManager.update_task` can `setattr` an
  arbitrary value into it.  It is therefore modelled by `StatusVal`, which is
  either a proper enum member or a raw (non-enum) value, carried as a string.
  Other attributes are modelled at their normal types: patches of those
  fields carry values of the type the rest of the program stores there.
-/

set_option autoImplicit false

namespace TMS

abbrev Time := Nat

def secondsPerDay : Nat := 86400

/-- Python `str.lower()`: lower-case every character (character-wise, which
agrees with Python on the ASCII tags the program handles). -/
def pyLower (s : String) : String := String.mk (s.data.map Char.toLower)

inductive Priority
  | LOW
  | MEDIUM
  | HIGH
  | URGENT
deriving DecidableEq, Repr

inductive TaskStatus
  | NOT_STARTED
  | IN_PROGRESS
  | BLOCKED
  | COMPLETED
  | CANCELLED
deriving DecidableEq, Repr

/-- `Priority.name` of the Python `Enum` member. -/
def Priority.pyName : Priority → String
  | .LOW => "LOW"
  | .MEDIUM => "MEDIUM"
  | .HIGH => "HIGH"
  | .URGENT => "URGENT"

/-- `Priority[name]` lookup; `none` models the `KeyError` on an unknown name. -/
def Priority.fromName : String → Option Priority
  | "LOW" => some .LOW
  | "MEDIUM" => some .MEDIUM
  | "HIGH" => some .HIGH
  | "URGENT" => some .URGENT
  | _ => none

/-- `TaskStatus.name` of the Python `Enum` member. -/
def TaskStatus.pyName : TaskStatus → String
  | .NOT_STARTED => "NOT_STARTED"
  | .IN_PROGRESS => "IN_PROGRESS"
  | .BLOCKED => "BLOCKED"
  | .COMPLETED => "COMPLETED"
  | .CANCELLED => "CANCELLED"

/-- `TaskStatus[name]` lookup; `none` models the `KeyError` on an unknown name. -/
def TaskStatus.fromName : String → Option TaskStatus
  | "NOT_STARTED" => some .NOT_STARTED
  | "IN_PROGRESS" => some .IN_PROGRESS
  | "BLOCKED" => some .BLOCKED
  | "COMPLETED" => some .COMPLETED
  | "CANCELLED" => some .CANCELLED
  | _ => none

/-- The dynamic value of the `status` attribute: either a proper
`TaskStatus` enum member, or a raw non-enum value (carried as a string)
that `update_task` may have stored via `setattr`. -/
inductive StatusVal
  | mk (s : TaskStatus)
  | raw (s : String)
deriving DecidableEq, Repr

/-- `status in TaskStatus`: the membership test of `update_status`. -/
def StatusVal.isValid : StatusVal → Bool
  | .mk _ => true
  | .raw _ => false

/-- `self.status == TaskStatus.COMPLETED`.  A raw value never equals the
enum member, as in Python. -/
def StatusVal.isCompleted : StatusVal → Bool
  | .mk TaskStatus.COMPLETED => true
  | _ => false

/-- `self.status.name`: `none` models the `AttributeError` raised when the
attribute holds a non-enum value. -/
def StatusVal.pyName : StatusVal → Option String
  | .mk s => some s.pyName
  | .raw _ => none

/-- The attributes shared by every task variant (`Task.__init__`). -/
structure TaskBase where
  id : String
  title : String
  description : Option String
  priority : Priority
  status : StatusVal
  created_at : Time
  updated_at : Time
  due_date : Option Time
  completion_date : Option Time
  tags : Finset String
deriving DecidableEq

/-- `ProjectTask`: base attributes plus `project`, `dependencies`,
`estimated_hours`. -/
structure PTask where
  base : TaskBase
  project : String
  dependencies : Finset String
  estimated_hours : Rat
deriving DecidableEq

/-- `RecurringTask`: base attributes plus `frequency`, `recurrence_count`,
`last_completed`. -/
structure RTask where
  base : TaskBase
  frequency : String
  recurrence_count : Nat
  last_completed : Option Time
deriving DecidableEq

/-- A task object of one of the three concrete classes. -/
inductive Task
  | simple (b : TaskBase)
  | project (p : PTask)
  | recurring (r : RTask)
deriving DecidableEq

def Task.base : Task → TaskBase
  | .simple b => b
  | .project p => p.base
  | .recurring r => r.base

/-- Rewrite the shared attributes, keeping the variant-specific ones. -/
def Task.mapBase (f : TaskBase → TaskBase) : Task → Task
  | .simple b => .simple (f b)
  | .project p => .project { p with base := f p.base }
  | .recurring r => .recurring { r with base := f r.base }

def Task.id (t : Task) : String := t.base.id

def Task.title (t : Task) : String := t.base.title

/-- `Task.update_status` (lines 41-50): rejects a value that is not a
`TaskStatus` member, otherwise stores it, bumps `updated_at`, and on
`COMPLETED` records `completion_date = updated_at`. -/
def Task.update_status (now : Time) (t : Task) (v : StatusVal) : Except String Task :=
  match v with
  | .raw s => .error ("Invalid status: " ++ s)
  | .mk s =>
      .ok (t.mapBase fun b =>
        { b with
          status := .mk s
          updated_at := now
          completion_date :=
            if s = TaskStatus.COMPLETED then some now else b.completion_date })

/-- `Task.add_tag` (lines 52-55): inserts the lower-cased tag, bumps
`updated_at`. -/
def Task.add_tag (now : Time) (t : Task) (tag : String) : Task :=
  t.mapBase fun b => { b with tags := insert (pyLower tag) b.tags, updated_at := now }

/-- `Task.is_overdue` (lines 63-67).  A non-`None` `datetime` is always
truthy, so `if self.due_date` is the `isSome` test. -/
def Task.is_overdue (now : Time) (t : Task) : Bool :=
  match t.base.due_date with
  | some d => !t.base.status.isCompleted && decide (now > d)
  | none => false

/-- `RecurringTask.complete_occurrence` (lines 177-196). -/
def nextDue (frequency : String) (d : Time) : Time :=
  if frequency = "daily" then d + 1 * secondsPerDay
  else if frequency = "weekly" then d + 7 * secondsPerDay
  else if frequency = "monthly" then d + 30 * secondsPerDay
  else if frequency = "yearly" then d + 365 * secondsPerDay
  else d

def RTask.complete_occurrence (now : Time) (r : RTask) : RTask :=
  { r with
    last_completed := some now
    recurrence_count := r.recurrence_count + 1
    base :=
      { r.base with
        status := .mk .NOT_STARTED
        due_date := r.base.due_date.map (nextDue r.frequency)
        updated_at := now } }

/-- The argument of `ProjectTask.set_estimate`: inputs on which Python's
`float()` succeeds are `num` (carrying the converted value), the others are
`nonNumeric` (on which `float()` raises). -/
inductive HoursInput
  | num (q : Rat)
  | nonNumeric (s : String)
deriving DecidableEq

/-- `ProjectTask.set_estimate` (lines 143-146): `self.estimated_hours =
float(hours)` then bump `updated_at`; the conversion failure propagates
before any assignment. -/
def PTask.set_estimate (now : Time) (p : PTask) (hours : HoursInput) : Except String PTask :=
  match hours with
  | .num q => .ok { p with estimated_hours := q, base := { p.base with updated_at := now } }
  | .nonNumeric s => .error ("could not convert string to float: " ++ s)

/-! ## The manager's dictionary

`TaskManager.tasks` is a Python `dict` keyed by task id.  A `dict` is an
insertion-ordered association list with unique keys: assigning to an
existing key replaces the value in place, assigning to a fresh key appends,
`pop` removes the entry. -/

abbrev TaskDict := List (String × Task)

def dictGet (k : String) : TaskDict → Option Task
  | [] => none
  | (k', v) :: rest => if k' = k then some v else dictGet k rest

/-- `d[k] = v`: replace in place when the key exists, append otherwise. -/
def dictInsert (k : String) (v : Task) : TaskDict → TaskDict
  | [] => [(k, v)]
  | (k', v') :: rest => if k' = k then (k, v) :: rest else (k', v') :: dictInsert k v rest

/-- `d.pop(k)`: drop the (first) entry with this key. -/
def dictErase (k : String) : TaskDict → TaskDict
  | [] => []
  | (k', v') :: rest => if k' = k then rest else (k', v') :: dictErase k rest

/-- One entry of `TaskManager.task_history` (`_record_history`,
lines 275-282).  The stored `timestamp` is `datetime.now().isoformat()`,
modelled by the timestamp value. -/
structure HistoryRecord where
  action : String
  task_id : String
  task_title : String
  timestamp : Time
deriving DecidableEq

structure TaskManager where
  tasks : TaskDict
  task_history : List HistoryRecord
deriving DecidableEq

/-- `TaskManager._record_history` (lines 275-282). -/
def TaskManager.record_history (m : TaskManager) (now : Time) (action : String)
    (t : Task) : TaskManager :=
  { m with task_history := m.task_history ++ [⟨action, t.id, t.title, now⟩] }

/-- `TaskManager.add_task` (lines 243-247). -/
def TaskManager.add_task (m : TaskManager) (now : Time) (t : Task) : Task × TaskManager :=
  let m1 : TaskManager := { m with tasks := dictInsert t.id t m.tasks }
  (t, m1.record_history now "add" t)

/-- `TaskManager.get_task` (lines 249-251). -/
def TaskManager.get_task (m : TaskManager) (task_id : String) : Option Task :=
  dictGet task_id m.tasks

/-- One `key=value` entry of the `**kwargs` patch of
`TaskManager.update_task`.  Each constructor names an attribute some task
object owns and carries a value of the type the program stores there
(`status` keeps its dynamic type `StatusVal`); `unknownAttr` is a name that
is not an attribute of any task object. -/
inductive FieldPatch
  | id (v : String)
  | title (v : String)
  | description (v : Option String)
  | priority (v : Priority)
  | status (v : StatusVal)
  | created_at (v : Time)
  | updated_at (v : Time)
  | due_date (v : Option Time)
  | completion_date (v : Option Time)
  | tags (v : Finset String)
  | project (v : String)
  | dependencies (v : Finset String)
  | estimated_hours (v : Rat)
  | frequency (v : String)
  | recurrence_count (v : Nat)
  | last_completed (v : Option Time)
  | unknownAttr (name : String)
deriving DecidableEq

/-- `if hasattr(task, key): setattr(task, key, value)` for one patch entry:
shared attributes exist on every variant, variant-specific attributes only
on their variant (`hasattr` is false elsewhere and the entry is skipped),
and an unknown name is skipped. -/
def Task.setattr (t : Task) (p : FieldPatch) : Task :=
  match p with
  | .id v => t.mapBase fun b => { b with id := v }
  | .title v => t.mapBase fun b => { b with title := v }
  | .description v => t.mapBase fun b => { b with description := v }
  | .priority v => t.mapBase fun b => { b with priority := v }
  | .status v => t.mapBase fun b => { b with status := v }
  | .created_at v => t.mapBase fun b => { b with created_at := v }
  | .updated_at v => t.mapBase fun b => { b with updated_at := v }
  | .due_date v => t.mapBase fun b => { b with due_date := v }
  | .completion_date v => t.mapBase fun b => { b with completion_date := v }
  | .tags v => t.mapBase fun b => { b with tags := v }
  | .project v =>
      match t with
      | .project p => .project { p with project := v }
      | t => t
  | .dependencies v =>
      match t with
      | .project p => .project { p with dependencies := v }
      | t => t
  | .estimated_hours v =>
      match t with
      | .project p => .project { p with estimated_hours := v }
      | t => t
  | .frequency v =>
      match t with
      | .recurring r => .recurring { r with frequency := v }
      | t => t
  | .recurrence_count v =>
      match t with
      | .recurring r => .recurring { r with recurrence_count := v }
      | t => t
  | .last_completed v =>
      match t with
      | .recurring r => .recurring { r with last_completed := v }
      | t => t
  | .unknownAttr _ => t

/-- `TaskManager.update_task` (lines 253-265): unknown id returns `False`
untouched; otherwise each patch entry is applied in order, `updated_at` is
set to now afterwards, an "update" history record is appended and `True`
is returned.  The object is mutated in place, so the dictionary key stays
`task_id` even if the patch rewrote the `id` attribute. -/
def TaskManager.update_task (m : TaskManager) (now : Time) (task_id : String)
    (patch : List FieldPatch) : Bool × TaskManager :=
  match dictGet task_id m.tasks with
  | none => (false, m)
  | some task =>
      let task := patch.foldl Task.setattr task
      let task := task.mapBase fun b => { b with updated_at := now }
      let m1 : TaskManager := { m with tasks := dictInsert task_id task m.tasks }
      (true, m1.record_history now "update" task)

/-- `TaskManager.delete_task` (lines 267-273). -/
def TaskManager.delete_task (m : TaskManager) (now : Time) (task_id : String) :
    Bool × TaskManager :=
  match dictGet task_id m.tasks with
  | some task =>
      (true, ({ m with tasks := dictErase task_id m.tasks } : TaskManager).record_history
        now "delete" task)
  | none => (false, m)

/-! ## Persistence -/

/-- The per-task JSON object written by `to_dict` and read back by
`load_from_file`.  Shared keys are always present; variant-specific keys
are `Option`s (`none` = the key is absent), except `last_completed`, whose
absence and JSON `null` are indistinguishable to `pop(..., None)`.
`dependencies`/`estimated_hours`/`recurrence_count` are read with `pop`
defaults, `project`/`frequency` without (a `KeyError` on absence). -/
structure TaskRecord where
  ttype : String
  id : String
  title : String
  description : Option String
  priority : String
  status : String
  created_at : Time
  updated_at : Time
  due_date : Option Time
  completion_date : Option Time
  tags : Finset String
  project : Option String
  dependencies : Option (Finset String)
  estimated_hours : Option Rat
  frequency : Option String
  recurrence_count : Option Nat
  last_completed : Option Time
deriving DecidableEq

/-- The shared part of `Task.to_dict` (lines 74-88), given the already
computed `self.status.name`. -/
def baseRecord (ty : String) (b : TaskBase) (sname : String) : TaskRecord :=
  { ttype := ty
    id := b.id
    title := b.title
    description := b.description
    priority := b.priority.pyName
    status := sname
    created_at := b.created_at
    updated_at := b.updated_at
    due_date := b.due_date
    completion_date := b.completion_date
    tags := b.tags
    project := none
    dependencies := none
    estimated_hours := none
    frequency := none
    recurrence_count := none
    last_completed := none }

/-- `to_dict` of each variant (lines 74-88, 157-165, 225-233).  `none`
models the `AttributeError` of `self.status.name` when the status attribute
holds a non-enum value. -/
def Task.to_dict (t : Task) : Option TaskRecord :=
  t.base.status.pyName.map fun sname =>
    match t with
    | .simple b => baseRecord "SimpleTask" b sname
    | .project p =>
        { baseRecord "ProjectTask" p.base sname with
          project := some p.project
          dependencies := some p.dependencies
          estimated_hours := some p.estimated_hours }
    | .recurring r =>
        { baseRecord "RecurringTask" r.base sname with
          frequency := some r.frequency
          recurrence_count := some r.recurrence_count
          last_completed := r.last_completed }

/-- The JSON document `{"tasks": [...], "history": [...]}`. -/
structure SaveData where
  tasks : List TaskRecord
  history : List HistoryRecord
deriving DecidableEq

/-- `[task.to_dict() for task in self.tasks.values()]`: `none` when some
`to_dict` raises. -/
def serializeTasks : TaskDict → Option (List TaskRecord)
  | [] => some []
  | kv :: rest =>
      kv.2.to_dict.bind fun r => (serializeTasks rest).map fun rs => r :: rs

/-- `TaskManager.save_to_file` (lines 300-308): serialize every task in
dictionary order together with the history. -/
def TaskManager.save_to_file (m : TaskManager) : Option SaveData :=
  (serializeTasks m.tasks).map fun recs => ⟨recs, m.task_history⟩

/-- `Task.__init__` (lines 29-39) as called during `load_from_file`:
`freshId` stands for the generated `uuid4` and `now` for creation time
(both are overwritten right after construction by the loader). -/
def mkTaskBase (freshId : String) (now : Time) (title : String) (descr : Option String)
    (prio : Priority) (due : Option Time) : TaskBase :=
  { id := freshId
    title := title
    description := descr
    priority := prio
    status := .mk .NOT_STARTED
    created_at := now
    updated_at := now
    due_date := due
    completion_date := none
    tags := ∅ }

/-- The discriminator dispatch of the reconstruction loop (lines 337-360):
the variant constructor call with the stored required fields, then the
variant-specific `pop`s.  `ok none` is the `continue` on an unknown type;
`error` is the `KeyError` of `pop("project")`/`pop("frequency")` on a
record missing that key. -/
def constructTask (r : TaskRecord) (prio : Priority) : Except Unit (Option Task) :=
  match r.ttype with
  | "SimpleTask" =>
      .ok (some (.simple (mkTaskBase "" 0 r.title r.description prio r.due_date)))
  | "ProjectTask" =>
      match r.project with
      | none => .error ()
      | some proj =>
          .ok (some (.project
            { base := mkTaskBase "" 0 r.title r.description prio r.due_date
              project := proj
              dependencies := r.dependencies.getD ∅
              estimated_hours := r.estimated_hours.getD 1 }))
  | "RecurringTask" =>
      match r.frequency with
      | none => .error ()
      | some freq =>
          .ok (some (.recurring
            { base := mkTaskBase "" 0 r.title r.description prio r.due_date
              frequency := freq
              recurrence_count := r.recurrence_count.getD 0
              last_completed := r.last_completed }))
  | _ => .ok none

/-- "Set common properties" (lines 362-368): the loader overwrites
`id`, `status`, `created_at`, `updated_at`, `completion_date`, `tags` of
the freshly constructed object with the stored values. -/
def overwriteCommon (r : TaskRecord) (stat : TaskStatus) (t : Task) : Task :=
  t.mapBase fun b =>
    { b with
      id := r.id
      status := .mk stat
      created_at := r.created_at
      updated_at := r.updated_at
      completion_date := r.completion_date
      tags := r.tags }

/-- The body of the reconstruction loop of `load_from_file` (lines 323-368)
for one stored record: convert the enum names (a `KeyError` on an unknown
name aborts the whole load and happens before the type dispatch), dispatch
on the discriminator (`ok none` = unknown type, skipped), then overwrite
the common attributes from the stored data. -/
def loadRecord (r : TaskRecord) : Except Unit (Option Task) :=
  match Priority.fromName r.priority, TaskStatus.fromName r.status with
  | some prio, some stat =>
      match constructTask r prio with
      | .error e => .error e
      | .ok none => .ok none
      | .ok (some t) => .ok (some (overwriteCommon r stat t))
  | _, _ => .error ()

/-- The reconstruction loop: `self.tasks[task.id] = task` for each loaded
record, skipping unknown discriminators, propagating conversion failures. -/
def loadTasks : List TaskRecord → TaskDict → Except Unit TaskDict
  | [], acc => .ok acc
  | r :: rest, acc =>
      match loadRecord r with
      | .error e => .error e
      | .ok none => loadTasks rest acc
      | .ok (some t) => loadTasks rest (dictInsert t.id t acc)

/-- `TaskManager.load_from_file` (lines 310-373).  The argument is the
parsed file: `none` models a missing path (return `False`, no change);
`Except.error` models an exception while decoding records. -/
def TaskManager.load_from_file (m : TaskManager) (file : Option SaveData) :
    Except Unit (Bool × TaskManager) :=
  match file with
  | none => .ok (false, m)
  | some data =>
      match loadTasks data.tasks [] with
      | .error e => .error e
      | .ok ts => .ok (true, { tasks := ts, task_history := data.history })

/-! ## TaskFilter -/

/-- `TaskFilter.filter_by_multiple_tags` (lines 384-387). -/
def filter_by_multiple_tags (tasks : List Task) (tags : List String) : List Task :=
  tasks.filter fun t => tags.all fun tag => decide (pyLower tag ∈ t.base.tags)

/-- The dictionary invariant every reachable manager satisfies: each entry
is keyed by its task's `id` attribute and keys are distinct. -/
def TaskManager.WF (m : TaskManager) : Prop :=
  (∀ kv ∈ m.tasks, kv.1 = kv.2.id) ∧ (m.tasks.map Prod.fst).Nodup

instance (m : TaskManager) : Decidable m.WF := by
  unfold TaskManager.WF
  infer_instance

/-! ## Concrete objects used to instantiate the theorems -/

def demoBase : TaskBase :=
  { id := "t1"
    title := "Demo"
    description := none
    priority := .MEDIUM
    status := .mk .NOT_STARTED
    created_at := 50
    updated_at := 50
    due_date := some 1000
    completion_date := none
    tags := ∅ }

def demoSimple : Task := .simple demoBase

def demoP : PTask :=
  { base := { demoBase with id := "p1" }
    project := "proj"
    dependencies := {"t1"}
    estimated_hours := 1 }

def demoR : RTask :=
  { base := { demoBase with id := "r1", tags := {"habit"} }
    frequency := "weekly"
    recurrence_count := 2
    last_completed := some 40 }

def demoMgr : TaskManager := ⟨[("t1", demoSimple)], []⟩

def demoMgr3 : TaskManager :=
  ⟨[("t1", demoSimple), ("p1", .project demoP), ("r1", .recurring demoR)],
   [⟨"add", "t1", "Demo", 50⟩]⟩

def tUW : Task := .simple { demoBase with id := "uw", tags := {"urgent", "work"} }

def tU : Task := .simple { demoBase with id := "u", tags := {"urgent"} }

def tW : Task := .simple { demoBase with id := "w", tags := {"work"} }

def tCompletedLate : Task :=
  .simple { demoBase with status := .mk .COMPLETED, due_date := some 10 }

/-! ## Helper lemmas -/

theorem Task.base_mapBase (f : TaskBase → TaskBase) (t : Task) :
    (t.mapBase f).base = f t.base := by
  cases t <;> rfl

theorem Task.id_mapBase (f : TaskBase → TaskBase) (t : Task) :
    (t.mapBase f).id = (f t.base).id := by
  cases t <;> rfl

theorem dictGet_dictInsert_self (k : String) (v : Task) (l : TaskDict) :
    dictGet k (dictInsert k v l) = some v := by
  induction l with
  | nil => simp [dictInsert, dictGet]
  | cons kv rest ih =>
      obtain ⟨k', v'⟩ := kv
      by_cases h : k' = k <;> simp [dictInsert, dictGet, h, ih]

theorem dictGet_dictInsert_ne (k k' : String) (v : Task) (l : TaskDict) (h : k' ≠ k) :
    dictGet k' (dictInsert k v l) = dictGet k' l := by
  induction l with
  | nil => simp [dictInsert, dictGet, Ne.symm h]
  | cons kv rest ih =>
      obtain ⟨k₀, v₀⟩ := kv
      by_cases h0 : k₀ = k
      · subst h0
        simp [dictInsert, dictGet, Ne.symm h]
      · simp [dictInsert, dictGet, h0, ih]

theorem dictInsert_of_not_mem (k : String) (v : Task) (l : TaskDict)
    (h : k ∉ l.map Prod.fst) : dictInsert k v l = l ++ [(k, v)] := by
  induction l with
  | nil => rfl
  | cons kv rest ih =>
      obtain ⟨k₀, v₀⟩ := kv
      simp only [List.map_cons, List.mem_cons] at h
      push_neg at h
      simp [dictInsert, Ne.symm h.1, ih h.2]

theorem dictGet_eq_none_of_not_mem (k : String) (l : TaskDict)
    (h : k ∉ l.map Prod.fst) : dictGet k l = none := by
  induction l with
  | nil => rfl
  | cons kv rest ih =>
      obtain ⟨k₀, v₀⟩ := kv
      simp only [List.map_cons, List.mem_cons] at h
      push_neg at h
      simp [dictGet, Ne.symm h.1, ih h.2]

theorem length_dictInsert_of_isSome (k : String) (v : Task) (l : TaskDict)
    (h : (dictGet k l).isSome = true) : (dictInsert k v l).length = l.length := by
  induction l with
  | nil => simp [dictGet] at h
  | cons kv rest ih =>
      obtain ⟨k₀, v₀⟩ := kv
      by_cases h0 : k₀ = k
      · simp [dictInsert, h0]
      · simp only [dictGet, h0, if_false] at h
        simp [dictInsert, h0, ih h]

theorem dictGet_dictErase_self (k : String) (l : TaskDict)
    (h : (l.map Prod.fst).Nodup) : dictGet k (dictErase k l) = none := by
  induction l with
  | nil => rfl
  | cons kv rest ih =>
      obtain ⟨k₀, v₀⟩ := kv
      simp only [List.map_cons, List.nodup_cons] at h
      by_cases h0 : k₀ = k
      · subst h0
        simp only [dictErase, if_pos rfl]
        exact dictGet_eq_none_of_not_mem _ _ h.1
      · simp [dictErase, dictGet, h0, ih h.2]

theorem Priority.fromName_of_pyName (p : Priority) : Priority.fromName p.pyName = some p := by
  cases p <;> rfl

theorem TaskStatus.statusFromName_of_pyName (s : TaskStatus) :
    TaskStatus.fromName s.pyName = some s := by
  cases s <;> rfl

/-! ## Claim theorems -/

/-- C2: for every `RecurringTask`, `complete_occurrence` sets
`lastCompleted` to the current time, increments `recurrenceCount` by
exactly 1, resets status to NotStarted and bumps `updatedAt` in every
case; when a due date `D` is set it advances it by the fixed offset of the
frequency (daily +1 day, weekly +7, monthly +30, yearly +365) and leaves
it untouched on any other frequency string. -/
theorem c2_complete_occurrence (now : Time) (r : RTask) :
    (r.complete_occurrence now).last_completed = some now ∧
    (r.complete_occurrence now).recurrence_count = r.recurrence_count + 1 ∧
    (r.complete_occurrence now).base.status = .mk .NOT_STARTED ∧
    (r.complete_occurrence now).base.updated_at = now ∧
    (∀ D, r.base.due_date = some D →
      (r.frequency = "daily" →
        (r.complete_occurrence now).base.due_date = some (D + 1 * secondsPerDay)) ∧
      (r.frequency = "weekly" →
        (r.complete_occurrence now).base.due_date = some (D + 7 * secondsPerDay)) ∧
      (r.frequency = "monthly" →
        (r.complete_occurrence now).base.due_date = some (D + 30 * secondsPerDay)) ∧
      (r.frequency = "yearly" →
        (r.complete_occurrence now).base.due_date = some (D + 365 * secondsPerDay)) ∧
      (r.frequency ∉ (["daily", "weekly", "monthly", "yearly"] : List String) →
        (r.complete_occurrence now).base.due_date = some D)) := by
  refine ⟨rfl, rfl, rfl, rfl, ?_⟩
  intro D hD
  simp only [RTask.complete_occurrence, hD, Option.map_some]
  refine ⟨fun h => ?_, fun h => ?_, fun h => ?_, fun h => ?_, fun h => ?_⟩
  · simp [nextDue, h]
  · simp [nextDue, h]
  · simp [nextDue, h]
  · simp [nextDue, h]
  · simp only [List.mem_cons, List.not_mem_nil, or_false] at h
    push_neg at h
    simp [nextDue, h.1, h.2.1, h.2.2.1, h.2.2.2]

/-- Witness for C2 at a concrete weekly recurring task with due date 1000. -/
theorem c2_witness :
    (demoR.complete_occurrence 2000).base.due_date = some (1000 + 7 * secondsPerDay) ∧
    (demoR.complete_occurrence 2000).recurrence_count = 3 ∧
    (demoR.complete_occurrence 2000).base.status = .mk .NOT_STARTED := by
  have h := c2_complete_occurrence 2000 demoR
  exact ⟨((h.2.2.2.2 1000 rfl).2.1) rfl, h.2.1, h.2.2.1⟩

/-- C7: `is_overdue` is true iff the task has a due date, its status is not
Completed, and the current time is strictly past the due date; so it is
false with no due date and false for a Completed task.  The embedded
`is_overdue` is a pure function of the task (the Python method performs no
assignment), so it cannot change task state. -/
theorem c7_is_overdue (now : Time) (t : Task) :
    (t.is_overdue now = true ↔
      ∃ d, t.base.due_date = some d ∧ t.base.status.isCompleted = false ∧ d < now) ∧
    (t.base.due_date = none → t.is_overdue now = false) ∧
    (t.base.status.isCompleted = true → t.is_overdue now = false) := by
  refine ⟨?_, fun h => ?_, fun h => ?_⟩
  · cases hd : t.base.due_date with
    | none => simp [Task.is_overdue, hd]
    | some d =>
        cases hc : t.base.status.isCompleted <;>
          simp [Task.is_overdue, hd, hc, Nat.lt_iff_add_one_le]
  · simp [Task.is_overdue, h]
  · cases hd : t.base.due_date <;> simp [Task.is_overdue, hd, h]

/-- Witness for C7: a Completed task whose due date (10) is long past is
still not overdue at time 5000. -/
theorem c7_witness : tCompletedLate.is_overdue 5000 = false :=
  (c7_is_overdue 5000 tCompletedLate).2.2 rfl

/-- C8: `filter_by_multiple_tags` keeps exactly the tasks whose tag set
contains the lower-cased form of every query tag, i.e. is a superset of
the lower-cased query tag set; in particular, among tasks tagged
`{urgent, work}`, `{urgent}`, `{work}` the query `["urgent", "work"]`
returns only the first. -/
theorem c8_filter_by_multiple_tags :
    (∀ (tasks : List Task) (qtags : List String) (t : Task),
      t ∈ filter_by_multiple_tags tasks qtags ↔
        t ∈ tasks ∧ (qtags.map pyLower).toFinset ⊆ t.base.tags) ∧
    filter_by_multiple_tags [tUW, tU, tW] ["urgent", "work"] = [tUW] := by
  constructor
  · intro tasks qtags t
    simp only [filter_by_multiple_tags, List.mem_filter, List.all_eq_true,
      decide_eq_true_eq, and_congr_right_iff]
    intro _
    constructor
    · intro h x hx
      simp only [List.mem_toFinset, List.mem_map] at hx
      obtain ⟨q, hq, rfl⟩ := hx
      exact h q hq
    · intro h q hq
      exact h (by simp only [List.mem_toFinset, List.mem_map]; exact ⟨q, hq, rfl⟩)
  · decide

/-- C3: `update_status` fails (with the "Invalid status" error) exactly on
a value that is not one of the five recognized statuses; on a recognized
status it stores it and bumps `updated_at`, sets `completion_date` to the
current time exactly when the new status is Completed (leaving it alone
otherwise), and hence after a Completed update the completion date is
non-null and at least `created_at` whenever the clock has not run
backwards since creation.  On failure no task is produced: the exception
is raised before any assignment, so the task is unchanged. -/
theorem c3_update_status (now : Time) (t : Task) (v : StatusVal) :
    ((∃ e, Task.update_status now t v = .error e) ↔ v.isValid = false) ∧
    (∀ s', v = .raw s' →
      Task.update_status now t v = .error ("Invalid status: " ++ s')) ∧
    (∀ s, v = .mk s →
      ∃ t', Task.update_status now t v = .ok t' ∧
        t'.base.status = .mk s ∧
        t'.base.updated_at = now ∧
        (s = .COMPLETED → t'.base.completion_date = some now) ∧
        (s ≠ .COMPLETED → t'.base.completion_date = t.base.completion_date) ∧
        (s = .COMPLETED → t.base.created_at ≤ now →
          ∃ c, t'.base.completion_date = some c ∧ t.base.created_at ≤ c)) := by
  refine ⟨?_, ?_, ?_⟩
  · cases v with
    | raw s => simp [Task.update_status, StatusVal.isValid]
    | mk s => simp [Task.update_status, StatusVal.isValid]
  · rintro s' rfl
    rfl
  · rintro s rfl
    refine ⟨_, rfl, ?_, ?_, ?_, ?_, ?_⟩ <;>
      simp only [Task.base_mapBase]
    · intro hs
      simp [hs]
    · intro hs
      simp [hs]
    · intro hs hle
      exact ⟨now, by simp [hs], hle⟩

/-- Witness for C3: completing the demo task at time 60 ≥ its creation
time 50 yields a completion date at least the creation time. -/
theorem c3_witness :
    ∃ t', Task.update_status 60 demoSimple (.mk .COMPLETED) = .ok t' ∧
      ∃ c, t'.base.completion_date = some c ∧ demoSimple.base.created_at ≤ c := by
  obtain ⟨t', h1, -, -, -, -, h6⟩ :=
    (c3_update_status 60 demoSimple (.mk .COMPLETED)).2.2 .COMPLETED rfl
  exact ⟨t', h1, h6 rfl (by decide)⟩

/-- C4 counterexample: the claim says `set_estimate` coerces its argument
to a *positive* float, but the code stores `float(hours)` unchecked: at
input -5 the call succeeds and stores -5, which is not positive. -/
theorem c4_counterexample :
    (demoP.set_estimate 100 (.num (-5))).map PTask.estimated_hours = .ok (-5) ∧
    ¬ (0 : Rat) < -5 := by
  exact ⟨rfl, by norm_num⟩

/-- C4 (amended): `set_estimate` coerces its argument to a float — without
any positivity check — stores the coerced value as `estimated_hours` and
bumps `updated_at` while leaving every other attribute alone; it fails
exactly when the coercion fails, and on failure no assignment has
happened, so `estimated_hours` is unchanged. -/
theorem c4_set_estimate (now : Time) (p : PTask) (h : HoursInput) :
    ((∃ p', p.set_estimate now h = .ok p') ↔ ∃ q, h = .num q) ∧
    (∀ q, h = .num q →
      ∃ p', p.set_estimate now h = .ok p' ∧
        p'.estimated_hours = q ∧
        p'.base.updated_at = now ∧
        p'.project = p.project ∧
        p'.dependencies = p.dependencies ∧
        p'.base.title = p.base.title ∧
        p'.base.id = p.base.id) ∧
    (∀ s, h = .nonNumeric s →
      p.set_estimate now h = .error ("could not convert string to float: " ++ s)) := by
  refine ⟨?_, ?_, ?_⟩
  · cases h with
    | num q => simp [PTask.set_estimate]
    | nonNumeric s => simp [PTask.set_estimate]
  · rintro q rfl
    exact ⟨_, rfl, rfl, rfl, rfl, rfl, rfl, rfl⟩
  · rintro s rfl
    rfl

/-- Witness for C4 (amended): setting the demo project task's estimate to
3 succeeds and stores 3 with `updated_at` bumped to 7. -/
theorem c4_witness :
    ∃ p', demoP.set_estimate 7 (.num 3) = .ok p' ∧
      p'.estimated_hours = 3 ∧ p'.base.updated_at = 7 := by
  obtain ⟨p', h1, h2, h3, -⟩ := (c4_set_estimate 7 demoP (.num 3)).2.1 3 rfl
  exact ⟨p', h1, h2, h3⟩

/-- C5: `update_task` on an unregistered id returns false and changes
nothing; on a registered id it applies the patch entries in order (each
one assigned when the named attribute exists on the task, unknown names
ignored), sets the task's `updated_at` to now, appends one "update"
history record and returns true, leaving every other key untouched. -/
theorem c5_update_task (now : Time) (m : TaskManager) (tid : String)
    (patch : List FieldPatch) :
    (dictGet tid m.tasks = none → m.update_task now tid patch = (false, m)) ∧
    (∀ task, dictGet tid m.tasks = some task →
      (m.update_task now tid patch).1 = true ∧
      dictGet tid (m.update_task now tid patch).2.tasks =
        some ((patch.foldl Task.setattr task).mapBase
          fun b => { b with updated_at := now }) ∧
      ((patch.foldl Task.setattr task).mapBase
        fun b => { b with updated_at := now }).base.updated_at = now ∧
      (∀ k, k ≠ tid →
        dictGet k (m.update_task now tid patch).2.tasks = dictGet k m.tasks) ∧
      (m.update_task now tid patch).2.task_history = m.task_history ++
        [⟨"update",
          ((patch.foldl Task.setattr task).mapBase
            fun b => { b with updated_at := now }).id,
          ((patch.foldl Task.setattr task).mapBase
            fun b => { b with updated_at := now }).title,
          now⟩]) ∧
    (∀ (u : Task) (name : String), Task.setattr u (.unknownAttr name) = u) := by
  refine ⟨fun h => ?_, fun task h => ?_, fun u name => rfl⟩
  · simp [TaskManager.update_task, h]
  · refine ⟨?_, ?_, ?_, ?_, ?_⟩
    · simp [TaskManager.update_task, h]
    · simp only [TaskManager.update_task, h, TaskManager.record_history]
      exact dictGet_dictInsert_self _ _ _
    · simp [Task.base_mapBase]
    · intro k hk
      simp only [TaskManager.update_task, h, TaskManager.record_history]
      exact dictGet_dictInsert_ne _ _ _ _ hk
    · simp only [TaskManager.update_task, h, TaskManager.record_history]

/-- Witness for C5: patching the registered demo task's title succeeds. -/
theorem c5_witness :
    (demoMgr.update_task 70 "t1" [.title "New"]).1 = true := by
  exact ((c5_update_task 70 demoMgr "t1" [.title "New"]).2.1 demoSimple (by decide)).1

/-- C6: `delete_task` on an unknown id returns false leaving tasks and
history unchanged; on a known id it removes that entry (so the id no
longer resolves, given distinct keys), appends exactly one "delete"
history record and returns true. -/
theorem c6_delete_task (now : Time) (m : TaskManager) (tid : String) :
    (dictGet tid m.tasks = none → m.delete_task now tid = (false, m)) ∧
    (∀ task, dictGet tid m.tasks = some task →
      (m.delete_task now tid).1 = true ∧
      (m.delete_task now tid).2.tasks = dictErase tid m.tasks ∧
      ((m.tasks.map Prod.fst).Nodup →
        dictGet tid (m.delete_task now tid).2.tasks = none) ∧
      (m.delete_task now tid).2.task_history
        = m.task_history ++ [⟨"delete", task.id, task.title, now⟩]) := by
  refine ⟨fun h => ?_, fun task h => ?_⟩
  · simp [TaskManager.delete_task, h]
  · refine ⟨?_, ?_, ?_, ?_⟩
    · simp [TaskManager.delete_task, h]
    · simp only [TaskManager.delete_task, h, TaskManager.record_history]
    · intro hn
      simp only [TaskManager.delete_task, h, TaskManager.record_history]
      exact dictGet_dictErase_self tid m.tasks hn
    · simp only [TaskManager.delete_task, h, TaskManager.record_history]

/-- Witness for C6: deleting the registered demo task returns true and
appends exactly the one "delete" record. -/
theorem c6_witness :
    (demoMgr.delete_task 80 "t1").1 = true ∧
    (demoMgr.delete_task 80 "t1").2.task_history = [⟨"delete", "t1", "Demo", 80⟩] := by
  obtain ⟨h1, -, -, h4⟩ := (c6_delete_task 80 demoMgr "t1").2 demoSimple (by decide)
  exact ⟨h1, h4⟩

/-- C9: `update_task` validates nothing.  On a registered id it always
returns true, each recognized patch entry is assigned verbatim — in
particular `status` can be set to a raw value outside the five recognized
statuses (bypassing `update_status`'s check) and `tags` to non-lower-cased
strings (bypassing `add_tag`'s normalization, which always inserts the
lower-cased form), breaking the invariants those methods maintain. -/
theorem c9_update_task_no_validation (now : Time) (m : TaskManager) (tid : String)
    (patch : List FieldPatch) (task : Task)
    (h : dictGet tid m.tasks = some task) :
    (m.update_task now tid patch).1 = true ∧
    (∀ (u : Task) (v : StatusVal), (Task.setattr u (.status v)).base.status = v) ∧
    (∀ (u : Task) (g : Finset String), (Task.setattr u (.tags g)).base.tags = g) ∧
    (∀ (n : Time) (u : Task) (g : String),
      (Task.add_tag n u g).base.tags = insert (pyLower g) u.base.tags) ∧
    (∃ u, dictGet "t1" (demoMgr.update_task 90 "t1"
        [.status (.raw "Bogus"), .tags {"URGENT"}]).2.tasks = some u ∧
      u.base.status = .raw "Bogus" ∧
      StatusVal.isValid (.raw "Bogus") = false ∧
      "URGENT" ∈ u.base.tags ∧
      pyLower "URGENT" ≠ "URGENT") := by
  refine ⟨?_, ?_, ?_, ?_, ?_⟩
  · simp [TaskManager.update_task, h]
  · intro u v
    cases u <;> rfl
  · intro u g
    cases u <;> rfl
  · intro n u g
    cases u <;> rfl
  · exact ⟨_, rfl, rfl, rfl, by decide, by decide⟩

/-- Witness for C9: the demo manager's registered task accepts a patch
writing a non-enum status value, and the call reports success. -/
theorem c9_witness :
    (demoMgr.update_task 91 "t1" [.status (.raw "Nope")]).1 = true := by
  exact (c9_update_task_no_validation 91 demoMgr "t1" [.status (.raw "Nope")]
    demoSimple (by decide)).1

/-- C10: `add_task` stores the task under its `id` attribute, appends one
"add" history record and returns the task itself; a task already
registered under the same id is silently replaced (the lookup now yields
the new task and the collection does not grow), and the "add" record is
still appended. -/
theorem c10_add_task (now : Time) (m : TaskManager) (t : Task) :
    (m.add_task now t).1 = t ∧
    dictGet t.id (m.add_task now t).2.tasks = some t ∧
    (∀ k, k ≠ t.id → dictGet k (m.add_task now t).2.tasks = dictGet k m.tasks) ∧
    (m.add_task now t).2.task_history
      = m.task_history ++ [⟨"add", t.id, t.title, now⟩] ∧
    ((dictGet t.id m.tasks).isSome = true →
      (m.add_task now t).2.tasks.length = m.tasks.length) := by
  exact ⟨rfl, dictGet_dictInsert_self _ _ _,
    fun k hk => dictGet_dictInsert_ne _ _ _ _ hk, rfl,
    fun hs => length_dictInsert_of_isSome _ _ _ hs⟩

/-- Witness for C10: re-adding the already registered demo task replaces
it without growing the collection. -/
theorem c10_witness :
    (demoMgr.add_task 99 demoSimple).2.tasks.length = demoMgr.tasks.length := by
  exact (c10_add_task 99 demoMgr demoSimple).2.2.2.2 (by decide)

/-- Deserializing a record produced by `to_dict` reconstructs the original
task exactly: the discriminator picks the original variant, the enum names
convert back, and the constructor-then-overwrite sequence restores every
field. -/
theorem loadRecord_to_dict (t : Task) (r : TaskRecord) (h : t.to_dict = some r) :
    loadRecord r = .ok (some t) := by
  cases t with
  | simple b =>
      obtain ⟨i, ti, de, pr, st, ca, ua, dd, cd, tg⟩ := b
      cases st with
      | raw s => simp [Task.to_dict, Task.base, StatusVal.pyName] at h
      | mk s =>
          simp only [Task.to_dict, Task.base, StatusVal.pyName, Option.map_some',
            Option.some.injEq] at h
          subst h
          simp [loadRecord, baseRecord, Priority.fromName_of_pyName,
            TaskStatus.statusFromName_of_pyName, constructTask, mkTaskBase, overwriteCommon,
            Task.mapBase]
  | project p =>
      obtain ⟨⟨i, ti, de, pr, st, ca, ua, dd, cd, tg⟩, proj, deps, hrs⟩ := p
      cases st with
      | raw s => simp [Task.to_dict, Task.base, StatusVal.pyName] at h
      | mk s =>
          simp only [Task.to_dict, Task.base, StatusVal.pyName, Option.map_some',
            Option.some.injEq] at h
          subst h
          simp [loadRecord, baseRecord, Priority.fromName_of_pyName,
            TaskStatus.statusFromName_of_pyName, constructTask, mkTaskBase, overwriteCommon,
            Task.mapBase]
  | recurring rr =>
      obtain ⟨⟨i, ti, de, pr, st, ca, ua, dd, cd, tg⟩, freq, rc, lc⟩ := rr
      cases st with
      | raw s => simp [Task.to_dict, Task.base, StatusVal.pyName] at h
      | mk s =>
          simp only [Task.to_dict, Task.base, StatusVal.pyName, Option.map_some',
            Option.some.injEq] at h
          subst h
          simp [loadRecord, baseRecord, Priority.fromName_of_pyName,
            TaskStatus.statusFromName_of_pyName, constructTask, mkTaskBase, overwriteCommon,
            Task.mapBase]

/-- Serializing a well-keyed dictionary and running the reconstruction
loop appends exactly the original entries to the accumulator. -/
theorem loadTasks_serializeTasks (l : TaskDict) :
    ∀ (recs : List TaskRecord) (acc : TaskDict),
      serializeTasks l = some recs →
      (∀ kv ∈ l, kv.1 = kv.2.id) →
      (acc.map Prod.fst ++ l.map Prod.fst).Nodup →
      loadTasks recs acc = .ok (acc ++ l) := by
  induction l with
  | nil =>
      intro recs acc hs _ _
      simp only [serializeTasks, Option.some.injEq] at hs
      subst hs
      simp [loadTasks]
  | cons kv rest ih =>
      intro recs acc hs hkeys hnd
      obtain ⟨k, t⟩ := kv
      simp only [serializeTasks, Option.bind_eq_some, Option.map_eq_some'] at hs
      obtain ⟨r, hr, rs, hrs, hrecs⟩ := hs
      subst hrecs
      simp only [loadTasks, loadRecord_to_dict t r hr]
      have hk : k = t.id := hkeys (k, t) (List.mem_cons_self _ _)
      simp only [List.map_cons] at hnd
      have hnotmem : t.id ∉ acc.map Prod.fst := by
        rw [List.nodup_append] at hnd
        intro hmem
        exact hnd.2.2 hmem (hk ▸ List.mem_cons_self _ _)
      rw [dictInsert_of_not_mem _ _ _ hnotmem]
      have hkeys' : ∀ kv ∈ rest, kv.1 = kv.2.id := fun kv hkv =>
        hkeys kv (List.mem_cons_of_mem _ hkv)
      have hnd' : ((acc ++ [(t.id, t)]).map Prod.fst ++ rest.map Prod.fst).Nodup := by
        rw [List.map_append]
        simp only [List.map_cons, List.map_nil]
        rw [List.append_assoc, List.singleton_append]
        exact hk ▸ hnd
      rw [ih rs (acc ++ [(t.id, t)]) hrs hkeys' hnd']
      rw [List.append_assoc, List.singleton_append, hk]

/-- C1: round-trip.  For every well-keyed manager state whose save
succeeds, loading the saved document into any manager reproduces the task
collection exactly (every task with identical id, title, status, priority,
dates, tags and variant-specific fields — here even in the same order, so
in particular up to order) and restores the history verbatim. -/
theorem c1_round_trip (m m0 : TaskManager) (d : SaveData) (hwf : m.WF)
    (hsave : m.save_to_file = some d) :
    m0.load_from_file (some d) = .ok (true, ⟨m.tasks, m.task_history⟩) := by
  obtain ⟨hkeys, hnd⟩ := hwf
  simp only [TaskManager.save_to_file, Option.map_eq_some'] at hsave
  obtain ⟨recs, hrecs, hd⟩ := hsave
  subst hd
  have hl := loadTasks_serializeTasks m.tasks recs [] hrecs hkeys (by simpa using hnd)
  rw [List.nil_append] at hl
  simp [TaskManager.load_from_file, hl]

/-- Witness for C1: a concrete manager holding one task of each variant
(with tags, dependencies, a due date and a last-completed time) saves
successfully and loads back into an empty manager as exactly itself. -/
theorem c1_witness :
    TaskManager.load_from_file ⟨[], []⟩ demoMgr3.save_to_file = .ok (true, demoMgr3) := by
  obtain ⟨d, hd⟩ : ∃ d, demoMgr3.save_to_file = some d := ⟨_, rfl⟩
  rw [hd]
  exact c1_round_trip demoMgr3 ⟨[], []⟩ d (by decide) hd

end TMS
